import Mathlib

/-!
Verification of the GS_WhiteBoard input-to-stroke pipeline and history engine.

The development shallowly embeds the TypeScript sources:
* `src/src/utils/historyUtils.ts` — snapshot-based undo/redo over a scene graph;
* `src/utils/pressureSmoothing.ts` (unnamed part_005) — sampling filter,
  adaptive pressure smoothing, and adaptive pressure-transition interpolation;
* `src/src/components/Whiteboard.vue` — stroke building, segment splitting,
  and the pointer-event session lifecycle.

JavaScript numbers are modelled as real numbers.  JavaScript arrays used as
stacks (push/pop at the end, shift at the front) are modelled as Lean lists
with the NEWEST element at the HEAD: `push` is cons, `pop` takes the head,
and `shift` (evicting the oldest element) is `dropLast`.
-/

namespace GSWhiteBoard

/-! ## History engine (`historyUtils.ts`)

The scene graph (`Group`) is modelled by its list of children, of an abstract
element type `α`.  Serialization (`group.toJSON().children`) maps each child
to a serialized form `β` via `toJSON`; `group.add(elementData)` reconstructs
an element from data via `addData`.  The round-trip contract assumed by the
history engine is `toJSON (addData s) = s`.
A `HistoryEntry` is its `snapshot` field: the full serialized children list.
-/

/-- The mutable state touched by the history engine: the scene graph's
children plus the two history stacks (newest snapshot at the head). -/
structure HistoryState (α β : Type) where
  scene : List α
  undoStack : List (List β)
  redoStack : List (List β)
  deriving Repr, DecidableEq

/-- Serialize a scene's children, as `group.toJSON().children` does. -/
def sceneToJSON {α β : Type} (toJSON : α → β) (scene : List α) : List β :=
  scene.map toJSON

/-- `restoreState(group, state)`: remove every current child of the group,
then re-add one element per serialized entry, in snapshot order. -/
def restoreState {α β : Type} (addData : β → α) (_group : List α)
    (state : List β) : List α :=
  state.map addData

/-- `pushState(group, undoStack, redoStack, maxHistory)`: push the serialized
children onto the undo stack, evict the oldest entry if the stack exceeds
`maxHistory`, and clear the redo stack. -/
def pushState {α β : Type} (toJSON : α → β) (maxHistory : ℕ)
    (st : HistoryState α β) : HistoryState α β :=
  let u := sceneToJSON toJSON st.scene :: st.undoStack
  { scene := st.scene
    undoStack := if maxHistory < u.length then u.dropLast else u
    redoStack := [] }

/-- `undo(group, undoStack, redoStack)`: no-op on an empty undo stack;
otherwise pop the top entry onto the redo stack and restore the scene to the
snapshot now on top of the undo stack (or to empty). -/
def undo {α β : Type} (addData : β → α) (st : HistoryState α β) :
    HistoryState α β :=
  match st.undoStack with
  | [] => st
  | entry :: rest =>
    { scene := restoreState addData st.scene
        (match rest with
         | [] => []
         | top :: _ => top)
      undoStack := rest
      redoStack := entry :: st.redoStack }

/-- `redo(group, undoStack, redoStack)`: no-op on an empty redo stack;
otherwise pop the top entry back onto the undo stack and restore the scene
to that entry's snapshot. -/
def redo {α β : Type} (addData : β → α) (st : HistoryState α β) :
    HistoryState α β :=
  match st.redoStack with
  | [] => st
  | entry :: rest =>
    { scene := restoreState addData st.scene entry
      undoStack := entry :: st.undoStack
      redoStack := rest }

/-- A sequence of `pushState` calls; each element of `scenes` is the scene
content (children) at the moment of the corresponding push. -/
def applyPushes {α β : Type} (toJSON : α → β) (maxHistory : ℕ)
    (st : HistoryState α β) (scenes : List (List α)) : HistoryState α β :=
  scenes.foldl
    (fun acc sc => pushState toJSON maxHistory { acc with scene := sc }) st

/-! ### Facts about the history engine -/

/-- A single push keeps the newest `maxHistory` snapshots. -/
theorem pushState_undoStack {α β : Type} (toJSON : α → β) (maxHistory : ℕ)
    (st : HistoryState α β) (h : st.undoStack.length ≤ maxHistory) :
    (pushState toJSON maxHistory st).undoStack
      = (sceneToJSON toJSON st.scene :: st.undoStack).take maxHistory := by
  by_cases hc : maxHistory < (sceneToJSON toJSON st.scene :: st.undoStack).length
  · have hd : (pushState toJSON maxHistory st).undoStack
        = (sceneToJSON toJSON st.scene :: st.undoStack).dropLast := by
      simp only [pushState]
      rw [if_pos hc]
    rw [hd, List.dropLast_eq_take]
    congr 1
    simp only [List.length_cons] at hc ⊢
    omega
  · have hd : (pushState toJSON maxHistory st).undoStack
        = sceneToJSON toJSON st.scene :: st.undoStack := by
      simp only [pushState]
      rw [if_neg hc]
    rw [hd, List.take_of_length_le (not_lt.mp hc)]

/-- Prepending to a truncated list and re-truncating equals truncating the
whole concatenation. -/
theorem take_append_take {γ : Type} (A B : List γ) (m : ℕ) :
    (A ++ B.take m).take m = (A ++ B).take m := by
  rw [List.take_append_eq_append_take, List.take_append_eq_append_take,
    List.take_take, Nat.min_eq_left (Nat.sub_le m A.length)]

/-- The undo stack after a run of pushes is the truncation of all pushed
snapshots (newest first) prepended to the initial stack. -/
theorem applyPushes_undoStack {α β : Type} (toJSON : α → β) (maxHistory : ℕ)
    (st : HistoryState α β) (scenes : List (List α))
    (h : st.undoStack.length ≤ maxHistory) :
    (applyPushes toJSON maxHistory st scenes).undoStack
      = ((scenes.map (sceneToJSON toJSON)).reverse ++ st.undoStack).take maxHistory := by
  induction scenes generalizing st with
  | nil =>
    simp only [applyPushes, List.foldl_nil, List.map_nil, List.reverse_nil,
      List.nil_append]
    exact (List.take_of_length_le h).symm
  | cons sc rest ih =>
    have hstep : (pushState toJSON maxHistory { st with scene := sc }).undoStack
        = (sceneToJSON toJSON sc :: st.undoStack).take maxHistory :=
      pushState_undoStack toJSON maxHistory _ h
    have hlen : (pushState toJSON maxHistory { st with scene := sc }).undoStack.length
        ≤ maxHistory := by
      rw [hstep]; exact List.length_take_le maxHistory _
    have hfold : applyPushes toJSON maxHistory st (sc :: rest)
        = applyPushes toJSON maxHistory
            (pushState toJSON maxHistory { st with scene := sc }) rest := rfl
    rw [hfold, ih _ hlen, hstep, take_append_take]
    simp only [List.map_cons, List.reverse_cons, List.append_assoc,
      List.singleton_append]

/-- Every push leaves the redo stack empty. -/
theorem pushState_redoStack {α β : Type} (toJSON : α → β) (maxHistory : ℕ)
    (st : HistoryState α β) : (pushState toJSON maxHistory st).redoStack = [] := rfl

/-- C1 counterexample (the claim as stated, at a concrete input): with a
one-entry undo stack holding the empty snapshot but a scene currently
containing one element, `undo()` then `redo()` does NOT restore the
pre-undo scene — it restores the popped snapshot instead. -/
theorem undo_redo_not_inverse_on_arbitrary_scene :
    (redo (id : ℕ → ℕ)
        (undo (id : ℕ → ℕ)
          ({ scene := [1], undoStack := [[]], redoStack := [] } : HistoryState ℕ ℕ))).scene
      ≠ [1] ∧
    (redo (id : ℕ → ℕ)
        (undo (id : ℕ → ℕ)
          ({ scene := [1], undoStack := [[]], redoStack := [] } : HistoryState ℕ ℕ))).undoStack
      = [[]] ∧
    (redo (id : ℕ → ℕ)
        (undo (id : ℕ → ℕ)
          ({ scene := [1], undoStack := [[]], redoStack := [] } : HistoryState ℕ ℕ))).redoStack
      = [] := by
  refine ⟨?_, rfl, rfl⟩
  simp [undo, redo, restoreState]

/-- C1 (amended): whenever the scene's serialized children agree with the top
snapshot of the non-empty undo stack (the invariant holding right after a
`pushState`), `undo()` then `redo()` restores the exact pre-undo state: the
scene's serialized children and both stacks are exactly as before the undo.
Moreover `redo()` with an empty redo stack and `undo()` with an empty undo
stack are both no-ops. -/
theorem undo_redo_inverse {α β : Type} (toJSON : α → β) (addData : β → α)
    (roundtrip : ∀ s, toJSON (addData s) = s)
    (st : HistoryState α β) (entry : List β) (rest : List (List β))
    (htop : st.undoStack = entry :: rest)
    (hscene : sceneToJSON toJSON st.scene = entry) :
    sceneToJSON toJSON (redo addData (undo addData st)).scene
        = sceneToJSON toJSON st.scene ∧
    (redo addData (undo addData st)).undoStack = st.undoStack ∧
    (redo addData (undo addData st)).redoStack = st.redoStack ∧
    (∀ st2 : HistoryState α β, st2.redoStack = [] → redo addData st2 = st2) ∧
    (∀ st2 : HistoryState α β, st2.undoStack = [] → undo addData st2 = st2) := by
  obtain ⟨sc, u, r⟩ := st
  simp only at htop hscene
  subst htop
  refine ⟨?_, ?_, ?_, ?_, ?_⟩
  · simp only [undo, redo, restoreState, sceneToJSON, List.map_map]
    rw [show toJSON ∘ addData = id from funext roundtrip, List.map_id]
    exact hscene.symm
  · simp [undo, redo]
  · simp [undo, redo]
  · intro st2 h2
    obtain ⟨sc2, u2, r2⟩ := st2
    simp only at h2
    subst h2
    simp [redo]
  · intro st2 h2
    obtain ⟨sc2, u2, r2⟩ := st2
    simp only at h2
    subst h2
    simp [undo]

/-- C1 witness: the inverse law applied at a concrete state whose scene
matches the top snapshot. -/
theorem undo_redo_inverse_witness :
    sceneToJSON (id : ℕ → ℕ)
        (redo (id : ℕ → ℕ)
          (undo (id : ℕ → ℕ)
            ({ scene := [1, 2], undoStack := [[1, 2], [9]], redoStack := [] }
              : HistoryState ℕ ℕ))).scene
      = sceneToJSON (id : ℕ → ℕ) [1, 2] ∧
    (redo (id : ℕ → ℕ)
        (undo (id : ℕ → ℕ)
          ({ scene := [1, 2], undoStack := [[1, 2], [9]], redoStack := [] }
            : HistoryState ℕ ℕ))).undoStack = [[1, 2], [9]] ∧
    (redo (id : ℕ → ℕ)
        (undo (id : ℕ → ℕ)
          ({ scene := [1, 2], undoStack := [[1, 2], [9]], redoStack := [] }
            : HistoryState ℕ ℕ))).redoStack = [] := by
  have h := undo_redo_inverse (id : ℕ → ℕ) (id : ℕ → ℕ) (fun s => rfl)
    ({ scene := [1, 2], undoStack := [[1, 2], [9]], redoStack := [] } : HistoryState ℕ ℕ)
    [1, 2] [[9]] rfl rfl
  exact ⟨h.1, h.2.1, h.2.2.1⟩

/-- C2: starting from any history state whose undo stack is within capacity,
after `maxHistory + k` successive `pushState` calls (`k ≥ 1`,
`maxHistory ≥ 1`) the undo stack holds exactly `maxHistory` entries, its
oldest surviving entry is the `(k+1)`-th snapshot pushed, and the redo stack
is empty after every `pushState` call. -/
theorem bounded_history {α β : Type} (toJSON : α → β) (maxHistory k : ℕ)
    (hm : 1 ≤ maxHistory) (hk : 1 ≤ k)
    (st : HistoryState α β) (hst : st.undoStack.length ≤ maxHistory)
    (scenes : List (List α)) (hlen : scenes.length = maxHistory + k) :
    (applyPushes toJSON maxHistory st scenes).undoStack.length = maxHistory ∧
    (applyPushes toJSON maxHistory st scenes).undoStack.getLast?
        = (scenes.map (sceneToJSON toJSON))[k]? ∧
    (applyPushes toJSON maxHistory st scenes).redoStack = [] ∧
    (∀ st2 : HistoryState α β, (pushState toJSON maxHistory st2).redoStack = []) := by
  have hmain := applyPushes_undoStack toJSON maxHistory st scenes hst
  have hRlen : ((scenes.map (sceneToJSON toJSON)).reverse).length = maxHistory + k := by
    simp [hlen]
  have htake : ((scenes.map (sceneToJSON toJSON)).reverse ++ st.undoStack).take maxHistory
      = ((scenes.map (sceneToJSON toJSON)).reverse).take maxHistory :=
    List.take_append_of_le_length (by omega)
  rw [htake] at hmain
  refine ⟨?_, ?_, ?_, fun st2 => rfl⟩
  · rw [hmain]
    simp only [List.length_take, hRlen]
    omega
  · rw [hmain]
    have h1 : (((scenes.map (sceneToJSON toJSON)).reverse).take maxHistory).length
        = maxHistory := by
      simp only [List.length_take, hRlen]
      omega
    rw [List.getLast?_eq_getElem?, h1, List.getElem?_take,
      if_pos (by omega : maxHistory - 1 < maxHistory),
      List.getElem?_reverse (by rw [List.length_map, hlen]; omega)]
    have h2 : (scenes.map (sceneToJSON toJSON)).length - 1 - (maxHistory - 1) = k := by
      rw [List.length_map, hlen]; omega
    rw [h2]
  · rcases List.eq_nil_or_concat scenes with hnil | ⟨inits, last, rfl⟩
    · subst hnil; simp at hlen; omega
    · simp only [applyPushes, List.foldl_append, List.foldl_cons, List.foldl_nil,
        List.concat_eq_append]
      rfl

/-- C2 witness: three pushes into capacity-2 history starting from empty
stacks; the survivor list is the last two snapshots and the oldest survivor
is the second push. -/
theorem bounded_history_witness :
    (applyPushes (id : ℕ → ℕ) 2 ({ scene := [], undoStack := [], redoStack := [] }
        : HistoryState ℕ ℕ) [[1], [2], [3]]).undoStack.length = 2 ∧
    (applyPushes (id : ℕ → ℕ) 2 ({ scene := [], undoStack := [], redoStack := [] }
        : HistoryState ℕ ℕ) [[1], [2], [3]]).undoStack.getLast?
      = ([[1], [2], [3]].map (sceneToJSON (id : ℕ → ℕ)))[1]? ∧
    (applyPushes (id : ℕ → ℕ) 2 ({ scene := [], undoStack := [], redoStack := [] }
        : HistoryState ℕ ℕ) [[1], [2], [3]]).redoStack = [] := by
  have h := bounded_history (id : ℕ → ℕ) 2 1 (by decide) (by decide)
    ({ scene := [], undoStack := [], redoStack := [] } : HistoryState ℕ ℕ)
    (by decide) [[1], [2], [3]] (by decide)
  exact ⟨h.1, h.2.1, h.2.2.1⟩

/-- C3: assuming the scene graph's round-trip contract
(`toJSON (addData s) = s`), restoring the snapshot taken by `pushState`
(the serialized children of the scene) reproduces a scene whose serialized
children — in order — are identical to that snapshot, and restoring the same
snapshot twice yields the same scene as restoring it once. -/
theorem restore_roundtrip_and_idempotent {α β : Type} (toJSON : α → β)
    (addData : β → α) (roundtrip : ∀ s, toJSON (addData s) = s)
    (scene g g2 : List α) (snapshot : List β) :
    sceneToJSON toJSON (restoreState addData g (sceneToJSON toJSON scene))
        = sceneToJSON toJSON scene ∧
    restoreState addData (restoreState addData g2 snapshot) snapshot
        = restoreState addData g2 snapshot := by
  constructor
  · simp [restoreState, sceneToJSON, List.map_map, Function.comp, roundtrip]
  · rfl

/-- C3 witness: the round-trip applied at concrete scenes and snapshots. -/
theorem restore_roundtrip_witness :
    sceneToJSON (id : ℕ → ℕ)
        (restoreState (id : ℕ → ℕ) [7] (sceneToJSON (id : ℕ → ℕ) [4, 5]))
      = sceneToJSON (id : ℕ → ℕ) [4, 5] ∧
    restoreState (id : ℕ → ℕ) (restoreState (id : ℕ → ℕ) [7] [4, 5]) [4, 5]
      = restoreState (id : ℕ → ℕ) [7] [4, 5] :=
  restore_roundtrip_and_idempotent (id : ℕ → ℕ) (id : ℕ → ℕ) (fun _ => rfl)
    [4, 5] [7] [7] [4, 5]

/-! ## Pressure smoothing and interpolation (`pressureSmoothing.ts`)

JavaScript numbers are modelled as `ℝ`; branch conditions on reals use the
classical order decidability, so these definitions live in a
`noncomputable section`. -/

noncomputable section

/-- Default pressure EMA smoothing coefficient. -/
def DEFAULT_PRESSURE_SMOOTHING_ALPHA : ℝ := 0.3

/-- Default position smoothing coefficient. -/
def DEFAULT_POSITION_SMOOTHING_ALPHA : ℝ := 0.3

/-- Adaptive smoothing state: a rolling window of recent raw pressure
samples (oldest at the head, as in the JS array), its bound, and the last
pressure value. -/
structure AdaptiveSmoothingState where
  pressureHistory : List ℝ
  maxHistorySize : ℕ
  lastPressure : ℝ

/-- `initAdaptiveSmoothingState(maxHistorySize = 5)`. -/
def initAdaptiveSmoothingState (maxHistorySize : ℕ) : AdaptiveSmoothingState :=
  { pressureHistory := [], maxHistorySize := maxHistorySize, lastPressure := 0.5 }

/-- The rolling window after `state.pressureHistory.push(currentPressure)`
followed by a `shift()` when the bound is exceeded. -/
def updatedPressureHistory (state : AdaptiveSmoothingState)
    (currentPressure : ℝ) : List ℝ :=
  let h := state.pressureHistory ++ [currentPressure]
  if state.maxHistorySize < h.length then h.tail else h

/-- Mean of the pressure window (`reduce sum / length`). -/
def pressureMean (l : List ℝ) : ℝ := l.sum / l.length

/-- Variance of the pressure window
(`reduce (sum + (p - mean)^2) / length`). -/
def pressureVariance (l : List ℝ) : ℝ :=
  (l.map (fun p => (p - pressureMean l) ^ 2)).sum / l.length

/-- `getAdaptivePressureAlpha(state, currentPressure)`: updates the rolling
window in place and returns the smoothing coefficient.  Modelled as
returning the updated state together with the alpha. -/
def getAdaptivePressureAlpha (state : AdaptiveSmoothingState)
    (currentPressure : ℝ) : AdaptiveSmoothingState × ℝ :=
  let h := updatedPressureHistory state currentPressure
  let newState := { state with pressureHistory := h }
  if h.length < 3 then (newState, DEFAULT_PRESSURE_SMOOTHING_ALPHA)
  else
    let variance := pressureVariance h
    (newState,
      if variance < 0.001 then 0.4
      else if variance < 0.005 then 0.3
      else if variance < 0.01 then 0.2
      else 0.1)

/-- Minimum sampling distance in pixels. -/
def MIN_SAMPLING_DISTANCE : ℝ := 3

/-- Minimum sampling interval in milliseconds. -/
def MIN_SAMPLING_INTERVAL : ℝ := 8

/-- `exponentialMovingAverage(smoothed, current, alpha)`. -/
def exponentialMovingAverage (smoothed current alpha : ℝ) : ℝ :=
  alpha * current + (1 - alpha) * smoothed

/-- `lerp(start, end, t)`. -/
def lerp (start stop t : ℝ) : ℝ := start + (stop - start) * t

/-- `distance(x1, y1, x2, y2)`: Euclidean distance. -/
def distance (x1 y1 x2 y2 : ℝ) : ℝ :=
  Real.sqrt ((x2 - x1) * (x2 - x1) + (y2 - y1) * (y2 - y1))

/-- A drawing point: position, pressure, millisecond timestamp. -/
structure DrawingPoint where
  x : ℝ
  y : ℝ
  pressure : ℝ
  timestamp : ℝ

/-- `shouldAcceptPoint(lastPoint, newPoint)`: accept when the distance
reaches `MIN_SAMPLING_DISTANCE` or the elapsed time reaches
`MIN_SAMPLING_INTERVAL`. -/
def shouldAcceptPoint (lastPoint newPoint : DrawingPoint) : Prop :=
  MIN_SAMPLING_DISTANCE ≤ distance lastPoint.x lastPoint.y newPoint.x newPoint.y ∨
  MIN_SAMPLING_INTERVAL ≤ newPoint.timestamp - lastPoint.timestamp

/-- `smoothPosition(lastX, lastY, newX, newY, alpha)`. -/
def smoothPosition (lastX lastY newX newY alpha : ℝ) : ℝ × ℝ :=
  (alpha * newX + (1 - alpha) * lastX, alpha * newY + (1 - alpha) * lastY)

/-- An interpolated point emitted by the transition interpolator. -/
structure InterpolationPoint where
  x : ℝ
  y : ℝ
  pressure : ℝ

/-- Interpolation configuration: brush base width and pressure enablement. -/
structure InterpolationConfig where
  baseLineWidth : ℝ
  pressureEnabled : Bool

/-- Absolute pressure difference `Math.abs(pressure2 - pressure1)`. -/
def pressureDiff (pressure1 pressure2 : ℝ) : ℝ := |pressure2 - pressure1|

/-- Actual stroke-width change in pixels:
`baseLineWidth * pressureDiff * 2.5`. -/
def actualSizeChange (baseLineWidth pd : ℝ) : ℝ := baseLineWidth * pd * 2.5

/-- Pressure change per pixel: `pressureDiff / dist`. -/
def pressureGradient (pd dist : ℝ) : ℝ := pd / dist

/-- Size-change trigger threshold: `baseLineWidth > 30 ? 2 : 3`. -/
def sizeChangeThreshold (baseLineWidth : ℝ) : ℝ :=
  if 30 < baseLineWidth then 2 else 3

/-- Gradient trigger threshold: `baseLineWidth > 30 ? 0.015 : 0.02`. -/
def gradientThreshold (baseLineWidth : ℝ) : ℝ :=
  if 30 < baseLineWidth then 0.015 else 0.02

/-- Base interpolation point count, selected by gradient band (thick
brushes `> 30` use denser settings): `Math.max` of a band minimum and
`Math.floor(dist / spacing)`. -/
def basePoints (baseLineWidth dist grad : ℝ) : ℝ :=
  if grad < 0.02 then
    max (if 30 < baseLineWidth then 4 else 2)
      ((⌊dist / (if 30 < baseLineWidth then 3 else 5)⌋ : ℤ) : ℝ)
  else if grad < 0.05 then
    max (if 30 < baseLineWidth then 5 else 3)
      ((⌊dist / (if 30 < baseLineWidth then 2 else 2.5)⌋ : ℤ) : ℝ)
  else if grad < 0.1 then
    max (if 30 < baseLineWidth then 8 else 5)
      ((⌊dist / (if 30 < baseLineWidth then 1 else 1.5)⌋ : ℤ) : ℝ)
  else
    max (if 30 < baseLineWidth then 12 else 8)
      ((⌊dist / (if 30 < baseLineWidth then 0.5 else 0.8)⌋ : ℤ) : ℝ)

/-- Size factor `Math.min(thick ? 3 : 2, Math.max(0.5, actualSizeChange / 5))`. -/
def sizeFactor (baseLineWidth asc : ℝ) : ℝ :=
  min (if 30 < baseLineWidth then 3 else 2) (max 0.5 (asc / 5))

/-- `numPoints = Math.ceil(basePoints * sizeFactor)` at the arguments of the
interpolator. -/
def numPoints (x1 y1 pressure1 x2 y2 pressure2 : ℝ)
    (config : InterpolationConfig) : ℤ :=
  ⌈basePoints config.baseLineWidth (distance x1 y1 x2 y2)
      (pressureGradient (pressureDiff pressure1 pressure2) (distance x1 y1 x2 y2))
    * sizeFactor config.baseLineWidth
        (actualSizeChange config.baseLineWidth (pressureDiff pressure1 pressure2))⌉

/-- `adaptiveInterpolatePressureTransition(x1, y1, pressure1, x2, y2,
pressure2, config)`: returns the intermediate points (endpoints excluded),
or `[]` when pressure is disabled, the pressure difference is below `0.01`,
the distance is below `2`, or neither trigger condition holds.  The loop
`for (i = 1; i < numPoints; i++)` is modelled by `List.range' 1
(numPoints - 1)`. -/
def adaptiveInterpolatePressureTransition (x1 y1 pressure1 x2 y2 pressure2 : ℝ)
    (config : InterpolationConfig) : List InterpolationPoint :=
  if config.pressureEnabled = false then []
  else if pressureDiff pressure1 pressure2 < 0.01 then []
  else if distance x1 y1 x2 y2 < 2 then []
  else if sizeChangeThreshold config.baseLineWidth
        < actualSizeChange config.baseLineWidth (pressureDiff pressure1 pressure2)
      ∨ gradientThreshold config.baseLineWidth
        < pressureGradient (pressureDiff pressure1 pressure2) (distance x1 y1 x2 y2) then
    (List.range' 1 ((numPoints x1 y1 pressure1 x2 y2 pressure2 config) - 1).toNat).map
      (fun i : ℕ =>
        { x := lerp x1 x2 ((i : ℝ) / ((numPoints x1 y1 pressure1 x2 y2 pressure2 config : ℤ) : ℝ))
          y := lerp y1 y2 ((i : ℝ) / ((numPoints x1 y1 pressure1 x2 y2 pressure2 config : ℤ) : ℝ))
          pressure := lerp pressure1 pressure2
            ((i : ℝ) / ((numPoints x1 y1 pressure1 x2 y2 pressure2 config : ℤ) : ℝ)) })
  else []

end

/-! ### Facts about the sampling filter and adaptive smoothing -/

/-- C4: `shouldAcceptPoint` accepts exactly when the Euclidean distance
between the two points is at least `3` pixels (`MIN_SAMPLING_DISTANCE`) or
the timestamp difference is at least `8` milliseconds
(`MIN_SAMPLING_INTERVAL`); any two points strictly below both thresholds
are rejected. -/
theorem sampling_filter_characterization (lastPoint newPoint : DrawingPoint) :
    (shouldAcceptPoint lastPoint newPoint ↔
      3 ≤ Real.sqrt ((newPoint.x - lastPoint.x) ^ 2 + (newPoint.y - lastPoint.y) ^ 2) ∨
      8 ≤ newPoint.timestamp - lastPoint.timestamp) ∧
    ((newPoint.x - lastPoint.x) ^ 2 + (newPoint.y - lastPoint.y) ^ 2 < 9 →
      newPoint.timestamp - lastPoint.timestamp < 8 →
      ¬ shouldAcceptPoint lastPoint newPoint) := by
  have hdist : distance lastPoint.x lastPoint.y newPoint.x newPoint.y
      = Real.sqrt ((newPoint.x - lastPoint.x) ^ 2 + (newPoint.y - lastPoint.y) ^ 2) := by
    unfold distance
    congr 1
    ring
  constructor
  · unfold shouldAcceptPoint MIN_SAMPLING_DISTANCE MIN_SAMPLING_INTERVAL
    rw [hdist]
  · intro hsq ht hacc
    unfold shouldAcceptPoint MIN_SAMPLING_DISTANCE MIN_SAMPLING_INTERVAL at hacc
    rw [hdist] at hacc
    rcases hacc with hd | htime
    · have h3 : Real.sqrt ((newPoint.x - lastPoint.x) ^ 2 + (newPoint.y - lastPoint.y) ^ 2)
          < 3 := by
        rw [show (9:ℝ) = 3 ^ 2 by norm_num] at hsq
        exact (Real.sqrt_lt' (by norm_num)).mpr hsq
      linarith
    · linarith

/-- C4 witness: the point `(1, 0)` arriving `3` ms after `(0, 0)` is
strictly below both thresholds and is rejected. -/
theorem sampling_filter_witness :
    ¬ shouldAcceptPoint { x := 0, y := 0, pressure := 0.5, timestamp := 0 }
        { x := 1, y := 0, pressure := 0.5, timestamp := 3 } :=
  (sampling_filter_characterization
      { x := 0, y := 0, pressure := 0.5, timestamp := 0 }
      { x := 1, y := 0, pressure := 0.5, timestamp := 3 }).2
    (by norm_num) (by norm_num)

/-- C5: `getAdaptivePressureAlpha` first appends the current pressure to the
rolling window, evicting the oldest sample so the window never exceeds its
bound; with fewer than 3 samples it returns the fixed default alpha `0.3`;
otherwise the alpha is selected by the variance of the window:
`< 0.001 → 0.4`, `< 0.005 → 0.3`, `< 0.01 → 0.2`, else `0.1`. -/
theorem adaptive_alpha_characterization (state : AdaptiveSmoothingState)
    (currentPressure : ℝ)
    (hinv : state.pressureHistory.length ≤ state.maxHistorySize) :
    (getAdaptivePressureAlpha state currentPressure).1.pressureHistory
        = (state.pressureHistory ++ [currentPressure]).drop
            (state.pressureHistory.length + 1 - state.maxHistorySize) ∧
    (getAdaptivePressureAlpha state currentPressure).1.pressureHistory.length
        ≤ state.maxHistorySize ∧
    (getAdaptivePressureAlpha state currentPressure).1.maxHistorySize
        = state.maxHistorySize ∧
    ((getAdaptivePressureAlpha state currentPressure).1.pressureHistory.length < 3 →
      (getAdaptivePressureAlpha state currentPressure).2 = 0.3) ∧
    (3 ≤ (getAdaptivePressureAlpha state currentPressure).1.pressureHistory.length →
      ((pressureVariance (getAdaptivePressureAlpha state currentPressure).1.pressureHistory
          < 0.001 →
        (getAdaptivePressureAlpha state currentPressure).2 = 0.4) ∧
       (0.001 ≤ pressureVariance
            (getAdaptivePressureAlpha state currentPressure).1.pressureHistory →
        pressureVariance (getAdaptivePressureAlpha state currentPressure).1.pressureHistory
          < 0.005 →
        (getAdaptivePressureAlpha state currentPressure).2 = 0.3) ∧
       (0.005 ≤ pressureVariance
            (getAdaptivePressureAlpha state currentPressure).1.pressureHistory →
        pressureVariance (getAdaptivePressureAlpha state currentPressure).1.pressureHistory
          < 0.01 →
        (getAdaptivePressureAlpha state currentPressure).2 = 0.2) ∧
       (0.01 ≤ pressureVariance
            (getAdaptivePressureAlpha state currentPressure).1.pressureHistory →
        (getAdaptivePressureAlpha state currentPressure).2 = 0.1))) := by
  have huph : updatedPressureHistory state currentPressure
      = (state.pressureHistory ++ [currentPressure]).drop
          (state.pressureHistory.length + 1 - state.maxHistorySize) := by
    simp only [updatedPressureHistory]
    by_cases hc : state.maxHistorySize
        < (state.pressureHistory ++ [currentPressure]).length
    · rw [if_pos hc, ← List.drop_one]
      congr 1
      simp only [List.length_append, List.length_singleton] at hc
      omega
    · rw [if_neg hc]
      simp only [List.length_append, List.length_singleton] at hc
      rw [show state.pressureHistory.length + 1 - state.maxHistorySize = 0 by omega,
        List.drop_zero]
  have hfst : (getAdaptivePressureAlpha state currentPressure).1
      = { state with
          pressureHistory := updatedPressureHistory state currentPressure } := by
    simp only [getAdaptivePressureAlpha]
    split <;> rfl
  have hsnd1 : (updatedPressureHistory state currentPressure).length < 3 →
      (getAdaptivePressureAlpha state currentPressure).2
        = DEFAULT_PRESSURE_SMOOTHING_ALPHA := by
    intro hc
    simp only [getAdaptivePressureAlpha]
    rw [if_pos hc]
  have hsnd2 : ¬ (updatedPressureHistory state currentPressure).length < 3 →
      (getAdaptivePressureAlpha state currentPressure).2
        = (if pressureVariance (updatedPressureHistory state currentPressure) < 0.001
            then (0.4 : ℝ)
           else if pressureVariance (updatedPressureHistory state currentPressure) < 0.005
            then 0.3
           else if pressureVariance (updatedPressureHistory state currentPressure) < 0.01
            then 0.2
           else 0.1) := by
    intro hc
    simp only [getAdaptivePressureAlpha]
    rw [if_neg hc]
  have hlen2 : (updatedPressureHistory state currentPressure).length
      ≤ state.maxHistorySize := by
    rw [huph]
    simp only [List.length_drop, List.length_append, List.length_singleton]
    omega
  refine ⟨?_, ?_, ?_, ?_, ?_⟩
  · rw [hfst]; exact huph
  · rw [hfst]; exact hlen2
  · rw [hfst]
  · rw [hfst]
    intro hc
    rw [hsnd1 hc]
    norm_num [DEFAULT_PRESSURE_SMOOTHING_ALPHA]
  · rw [hfst]
    intro hc3
    have hc3x : 3 ≤ (updatedPressureHistory state currentPressure).length := hc3
    have hc : ¬ (updatedPressureHistory state currentPressure).length < 3 := by omega
    refine ⟨?_, ?_, ?_, ?_⟩
    · intro hv
      rw [hsnd2 hc, if_pos hv]
    · intro hv1 hv2
      rw [hsnd2 hc, if_neg (by linarith), if_pos hv2]
    · intro hv1 hv2
      rw [hsnd2 hc, if_neg (by linarith), if_neg (by linarith), if_pos hv2]
    · intro hv
      rw [hsnd2 hc, if_neg (by linarith), if_neg (by linarith), if_neg (by linarith)]

/-- C5 witness: pushing a third `0.5` sample into the window `[0.5, 0.5]`
(bound 5) gives a zero-variance window of three samples and alpha `0.4`. -/
theorem adaptive_alpha_witness :
    (getAdaptivePressureAlpha
        { pressureHistory := [0.5, 0.5], maxHistorySize := 5, lastPressure := 0.5 }
        0.5).2 = 0.4 := by
  have h := adaptive_alpha_characterization
    { pressureHistory := [0.5, 0.5], maxHistorySize := 5, lastPressure := 0.5 }
    0.5 (by norm_num)
  have hhist : (getAdaptivePressureAlpha
      { pressureHistory := [0.5, 0.5], maxHistorySize := 5, lastPressure := 0.5 }
      0.5).1.pressureHistory = [0.5, 0.5, 0.5] := by
    rw [h.1]
    norm_num
  have hvar : pressureVariance ((getAdaptivePressureAlpha
      { pressureHistory := [0.5, 0.5], maxHistorySize := 5, lastPressure := 0.5 }
      0.5).1.pressureHistory) < 0.001 := by
    rw [hhist]
    norm_num [pressureVariance, pressureMean]
  exact (h.2.2.2.2 (by rw [hhist]; norm_num)).1 hvar

/-! ### Facts about the adaptive pressure-transition interpolator -/

/-- The size factor never drops below `0.5`. -/
theorem sizeFactor_ge_half (w asc : ℝ) : (0.5 : ℝ) ≤ sizeFactor w asc := by
  unfold sizeFactor
  apply le_min
  · split <;> norm_num
  · exact le_max_left _ _

/-- When the size change exceeds `3`, the size factor is at least `0.6`. -/
theorem sizeFactor_ge_of_asc (w asc : ℝ) (h : 3 < asc) :
    (0.6 : ℝ) ≤ sizeFactor w asc := by
  unfold sizeFactor
  apply le_min
  · split <;> norm_num
  · exact le_max_of_le_right (by linarith)

/-- The base point count never drops below `2`. -/
theorem basePoints_ge_two (w d g : ℝ) : (2 : ℝ) ≤ basePoints w d g := by
  unfold basePoints
  split
  · refine le_max_of_le_left ?_
    split <;> norm_num
  · split
    · refine le_max_of_le_left ?_
      split <;> norm_num
    · split
      · refine le_max_of_le_left ?_
        split <;> norm_num
      · refine le_max_of_le_left ?_
        split <;> norm_num

/-- For thick brushes the base point count is at least `4`. -/
theorem basePoints_thick_ge_four (w d g : ℝ) (hw : 30 < w) :
    (4 : ℝ) ≤ basePoints w d g := by
  have hw4 : (if 30 < w then (4:ℝ) else 2) = 4 := if_pos hw
  have hw5 : (if 30 < w then (5:ℝ) else 3) = 5 := if_pos hw
  have hw8 : (if 30 < w then (8:ℝ) else 5) = 8 := if_pos hw
  have hw12 : (if 30 < w then (12:ℝ) else 8) = 12 := if_pos hw
  unfold basePoints
  rw [hw4, hw5, hw8, hw12]
  split
  · refine le_max_of_le_left ?_
    norm_num
  · split
    · refine le_max_of_le_left ?_
      norm_num
    · split
      · refine le_max_of_le_left ?_
        norm_num
      · refine le_max_of_le_left ?_
        norm_num

/-- Above the lowest gradient band the base point count is at least `3`. -/
theorem basePoints_ge_three_of_gradient (w d g : ℝ) (hg : ¬ g < 0.02) :
    (3 : ℝ) ≤ basePoints w d g := by
  unfold basePoints
  rw [if_neg hg]
  split
  · refine le_max_of_le_left ?_
    split <;> norm_num
  · split
    · refine le_max_of_le_left ?_
      split <;> norm_num
    · refine le_max_of_le_left ?_
      split <;> norm_num

/-- Once either trigger condition holds, the interpolation point budget
`basePoints * sizeFactor` exceeds `1`, so at least one point is emitted. -/
theorem interpolation_product_gt_one (w d pd : ℝ)
    (htrig : sizeChangeThreshold w < actualSizeChange w pd
      ∨ gradientThreshold w < pressureGradient pd d) :
    1 < basePoints w d (pressureGradient pd d)
        * sizeFactor w (actualSizeChange w pd) := by
  by_cases hw : 30 < w
  · have h1 := basePoints_thick_ge_four w d (pressureGradient pd d) hw
    have h2 := sizeFactor_ge_half w (actualSizeChange w pd)
    have hm : (4 : ℝ) * 0.5 ≤ basePoints w d (pressureGradient pd d)
        * sizeFactor w (actualSizeChange w pd) :=
      mul_le_mul h1 h2 (by norm_num) (by linarith)
    linarith
  · rcases htrig with hasc | hgrad
    · have hasc3 : 3 < actualSizeChange w pd := by
        unfold sizeChangeThreshold at hasc
        rw [if_neg hw] at hasc
        exact hasc
      have h1 := basePoints_ge_two w d (pressureGradient pd d)
      have h2 := sizeFactor_ge_of_asc w (actualSizeChange w pd) hasc3
      have hm : (2 : ℝ) * 0.6 ≤ basePoints w d (pressureGradient pd d)
          * sizeFactor w (actualSizeChange w pd) :=
        mul_le_mul h1 h2 (by norm_num) (by linarith)
      linarith
    · have hg : ¬ pressureGradient pd d < 0.02 := by
        unfold gradientThreshold at hgrad
        rw [if_neg hw] at hgrad
        intro hcon
        linarith
      have h1 := basePoints_ge_three_of_gradient w d (pressureGradient pd d) hg
      have h2 := sizeFactor_ge_half w (actualSizeChange w pd)
      have hm : (3 : ℝ) * 0.5 ≤ basePoints w d (pressureGradient pd d)
          * sizeFactor w (actualSizeChange w pd) :=
        mul_le_mul h1 h2 (by norm_num) (by linarith)
      linarith

/-- Under either trigger condition `numPoints` is at least `2`. -/
theorem numPoints_ge_two (x1 y1 pressure1 x2 y2 pressure2 : ℝ)
    (config : InterpolationConfig)
    (htrig : sizeChangeThreshold config.baseLineWidth
        < actualSizeChange config.baseLineWidth (pressureDiff pressure1 pressure2)
      ∨ gradientThreshold config.baseLineWidth
        < pressureGradient (pressureDiff pressure1 pressure2) (distance x1 y1 x2 y2)) :
    2 ≤ numPoints x1 y1 pressure1 x2 y2 pressure2 config := by
  unfold numPoints
  have hp := interpolation_product_gt_one config.baseLineWidth (distance x1 y1 x2 y2)
    (pressureDiff pressure1 pressure2) htrig
  have h2 : (1 : ℤ) < ⌈basePoints config.baseLineWidth (distance x1 y1 x2 y2)
      (pressureGradient (pressureDiff pressure1 pressure2) (distance x1 y1 x2 y2))
      * sizeFactor config.baseLineWidth
          (actualSizeChange config.baseLineWidth (pressureDiff pressure1 pressure2))⌉ :=
    Int.lt_ceil.mpr (by push_cast; exact hp)
  omega

/-- A non-empty interpolation result means every guard was passed. -/
theorem interp_guards (x1 y1 pressure1 x2 y2 pressure2 : ℝ)
    (config : InterpolationConfig)
    (hne : adaptiveInterpolatePressureTransition x1 y1 pressure1 x2 y2 pressure2 config
      ≠ []) :
    config.pressureEnabled = true ∧
    0.01 ≤ pressureDiff pressure1 pressure2 ∧
    2 ≤ distance x1 y1 x2 y2 ∧
    (sizeChangeThreshold config.baseLineWidth
        < actualSizeChange config.baseLineWidth (pressureDiff pressure1 pressure2)
      ∨ gradientThreshold config.baseLineWidth
        < pressureGradient (pressureDiff pressure1 pressure2) (distance x1 y1 x2 y2)) := by
  rw [adaptiveInterpolatePressureTransition] at hne
  split_ifs at hne with h1 h2 h3 h4
  · exact absurd rfl hne
  · exact absurd rfl hne
  · exact absurd rfl hne
  · refine ⟨?_, not_lt.mp h2, not_lt.mp h3, h4⟩
    simpa using h1
  · exact absurd rfl hne

/-- Once every guard is passed the interpolator is the point-emission loop. -/
theorem interp_eq_map (x1 y1 pressure1 x2 y2 pressure2 : ℝ)
    (config : InterpolationConfig)
    (he : config.pressureEnabled = true)
    (hpd : 0.01 ≤ pressureDiff pressure1 pressure2)
    (hdist : 2 ≤ distance x1 y1 x2 y2)
    (htrig : sizeChangeThreshold config.baseLineWidth
        < actualSizeChange config.baseLineWidth (pressureDiff pressure1 pressure2)
      ∨ gradientThreshold config.baseLineWidth
        < pressureGradient (pressureDiff pressure1 pressure2) (distance x1 y1 x2 y2)) :
    adaptiveInterpolatePressureTransition x1 y1 pressure1 x2 y2 pressure2 config
      = (List.range' 1
          ((numPoints x1 y1 pressure1 x2 y2 pressure2 config - 1)).toNat).map
        (fun i : ℕ =>
          { x := lerp x1 x2
              ((i : ℝ) / ((numPoints x1 y1 pressure1 x2 y2 pressure2 config : ℤ) : ℝ))
            y := lerp y1 y2
              ((i : ℝ) / ((numPoints x1 y1 pressure1 x2 y2 pressure2 config : ℤ) : ℝ))
            pressure := lerp pressure1 pressure2
              ((i : ℝ) / ((numPoints x1 y1 pressure1 x2 y2 pressure2 config : ℤ) : ℝ)) }) := by
  rw [adaptiveInterpolatePressureTransition]
  rw [if_neg (by simp [he]), if_neg (not_lt.mpr hpd), if_neg (not_lt.mpr hdist),
    if_pos htrig]

/-- C6: the interpolator returns a non-empty point list exactly when
pressure is enabled, the pressure difference is at least `0.01`, the
distance is at least `2`, and either the actual size change exceeds its
width-dependent threshold or the pressure gradient exceeds its
width-dependent threshold; in particular a `baseLineWidth = 10` brush with
pressures `0.2 → 0.8` over `50` px triggers interpolation. -/
theorem interpolation_trigger_characterization :
    (∀ (x1 y1 pressure1 x2 y2 pressure2 : ℝ) (config : InterpolationConfig),
      adaptiveInterpolatePressureTransition x1 y1 pressure1 x2 y2 pressure2 config
        ≠ [] ↔
      (config.pressureEnabled = true ∧
       0.01 ≤ |pressure2 - pressure1| ∧
       2 ≤ distance x1 y1 x2 y2 ∧
       ((if 30 < config.baseLineWidth then (2 : ℝ) else 3)
           < config.baseLineWidth * |pressure2 - pressure1| * 2.5 ∨
        (if 30 < config.baseLineWidth then (0.015 : ℝ) else 0.02)
           < |pressure2 - pressure1| / distance x1 y1 x2 y2))) ∧
    adaptiveInterpolatePressureTransition 0 0 0.2 50 0 0.8
      { baseLineWidth := 10, pressureEnabled := true } ≠ [] := by
  have hmain : ∀ (x1 y1 pressure1 x2 y2 pressure2 : ℝ) (config : InterpolationConfig),
      adaptiveInterpolatePressureTransition x1 y1 pressure1 x2 y2 pressure2 config
        ≠ [] ↔
      (config.pressureEnabled = true ∧
       0.01 ≤ |pressure2 - pressure1| ∧
       2 ≤ distance x1 y1 x2 y2 ∧
       ((if 30 < config.baseLineWidth then (2 : ℝ) else 3)
           < config.baseLineWidth * |pressure2 - pressure1| * 2.5 ∨
        (if 30 < config.baseLineWidth then (0.015 : ℝ) else 0.02)
           < |pressure2 - pressure1| / distance x1 y1 x2 y2)) := by
    intro x1 y1 pressure1 x2 y2 pressure2 config
    constructor
    · intro hne
      exact interp_guards x1 y1 pressure1 x2 y2 pressure2 config hne
    · rintro ⟨he, hpd, hdist, htrig⟩
      rw [interp_eq_map x1 y1 pressure1 x2 y2 pressure2 config he hpd hdist htrig]
      have hnp := numPoints_ge_two x1 y1 pressure1 x2 y2 pressure2 config htrig
      intro hcon
      have hlen := congrArg List.length hcon
      simp only [List.length_map, List.length_range', List.length_nil] at hlen
      omega
  have hsqrt : distance 0 0 50 0 = 50 := by
    unfold distance
    rw [show ((50:ℝ) - 0) * (50 - 0) + (0 - 0) * (0 - 0) = 50 ^ 2 by norm_num,
      Real.sqrt_sq (by norm_num : (0:ℝ) ≤ 50)]
  have habs : |(0.8:ℝ) - 0.2| = 0.6 := by
    rw [show (0.8:ℝ) - 0.2 = 0.6 by norm_num,
      abs_of_pos (by norm_num : (0:ℝ) < 0.6)]
  refine ⟨hmain, (hmain 0 0 0.2 50 0 0.8
    { baseLineWidth := 10, pressureEnabled := true }).mpr ⟨rfl, ?_, ?_, Or.inl ?_⟩⟩
  · rw [habs]; norm_num
  · rw [hsqrt]; norm_num
  · rw [habs]
    norm_num

/-- Linear interpolation at an interior parameter lies strictly between the
endpoints. -/
theorem lerp_strict_between (a b t : ℝ) (hab : a ≠ b) (h0 : 0 < t) (h1 : t < 1) :
    min a b < lerp a b t ∧ lerp a b t < max a b := by
  rcases lt_or_gt_of_ne hab with h | h
  · rw [min_eq_left h.le, max_eq_right h.le]
    unfold lerp
    constructor <;> nlinarith
  · rw [min_eq_right h.le, max_eq_left h.le]
    unfold lerp
    constructor <;> nlinarith

/-- A value strictly between two reals differs from both. -/
theorem ne_of_strict_between (a b c : ℝ) (h1 : min a b < c) (h2 : c < max a b) :
    c ≠ a ∧ c ≠ b := by
  constructor
  · intro hca
    rw [hca] at h1 h2
    rcases le_total a b with h | h
    · rw [min_eq_left h] at h1
      exact lt_irrefl _ h1
    · rw [max_eq_left h] at h2
      exact lt_irrefl _ h2
  · intro hcb
    rw [hcb] at h1 h2
    rcases le_total a b with h | h
    · rw [max_eq_right h] at h2
      exact lt_irrefl _ h2
    · rw [min_eq_right h] at h1
      exact lt_irrefl _ h1

/-- C7: every point returned by the interpolator is strictly interior: it is
the linear interpolation of position and pressure at `t = i / numPoints` for
some `1 ≤ i ≤ numPoints - 1` (so `0 < t < 1`), it differs from both
endpoints, and its pressure lies strictly between the endpoint pressures. -/
theorem interpolation_points_strictly_interior
    (x1 y1 pressure1 x2 y2 pressure2 : ℝ) (config : InterpolationConfig)
    (pt : InterpolationPoint)
    (hmem : pt ∈ adaptiveInterpolatePressureTransition x1 y1 pressure1 x2 y2
        pressure2 config) :
    ∃ i : ℕ, 1 ≤ i ∧
      (i : ℤ) ≤ numPoints x1 y1 pressure1 x2 y2 pressure2 config - 1 ∧
      0 < (i : ℝ) / ((numPoints x1 y1 pressure1 x2 y2 pressure2 config : ℤ) : ℝ) ∧
      (i : ℝ) / ((numPoints x1 y1 pressure1 x2 y2 pressure2 config : ℤ) : ℝ) < 1 ∧
      pt = { x := lerp x1 x2
               ((i : ℝ) / ((numPoints x1 y1 pressure1 x2 y2 pressure2 config : ℤ) : ℝ))
             y := lerp y1 y2
               ((i : ℝ) / ((numPoints x1 y1 pressure1 x2 y2 pressure2 config : ℤ) : ℝ))
             pressure := lerp pressure1 pressure2
               ((i : ℝ) / ((numPoints x1 y1 pressure1 x2 y2 pressure2 config : ℤ) : ℝ)) } ∧
      pt ≠ { x := x1, y := y1, pressure := pressure1 } ∧
      pt ≠ { x := x2, y := y2, pressure := pressure2 } ∧
      min pressure1 pressure2 < pt.pressure ∧
      pt.pressure < max pressure1 pressure2 := by
  have hne : adaptiveInterpolatePressureTransition x1 y1 pressure1 x2 y2 pressure2
      config ≠ [] := List.ne_nil_of_mem hmem
  obtain ⟨he, hpd, hdist, htrig⟩ :=
    interp_guards x1 y1 pressure1 x2 y2 pressure2 config hne
  rw [interp_eq_map x1 y1 pressure1 x2 y2 pressure2 config he hpd hdist htrig]
    at hmem
  obtain ⟨i, hirange, hpt⟩ := List.mem_map.mp hmem
  rw [List.mem_range'_1] at hirange
  obtain ⟨hi1, hi2⟩ := hirange
  have hnp := numPoints_ge_two x1 y1 pressure1 x2 y2 pressure2 config htrig
  have hile : (i : ℤ) ≤ numPoints x1 y1 pressure1 x2 y2 pressure2 config - 1 := by
    omega
  have hnpos : (0 : ℝ) < ((numPoints x1 y1 pressure1 x2 y2 pressure2 config : ℤ) : ℝ) := by
    have hh : (0 : ℤ) < numPoints x1 y1 pressure1 x2 y2 pressure2 config := by omega
    exact_mod_cast hh
  have hipos : (0 : ℝ) < (i : ℝ) := by
    have hh : 0 < i := by omega
    exact_mod_cast hh
  have htpos : 0 < (i : ℝ)
      / ((numPoints x1 y1 pressure1 x2 y2 pressure2 config : ℤ) : ℝ) :=
    div_pos hipos hnpos
  have hilt : (i : ℝ) < ((numPoints x1 y1 pressure1 x2 y2 pressure2 config : ℤ) : ℝ) := by
    have hh : (i : ℤ) < numPoints x1 y1 pressure1 x2 y2 pressure2 config := by omega
    exact_mod_cast hh
  have htlt : (i : ℝ)
      / ((numPoints x1 y1 pressure1 x2 y2 pressure2 config : ℤ) : ℝ) < 1 :=
    (div_lt_one hnpos).mpr hilt
  have hpne : pressure1 ≠ pressure2 := by
    intro hcon
    unfold pressureDiff at hpd
    rw [← hcon, sub_self, abs_zero] at hpd
    norm_num at hpd
  have hbet := lerp_strict_between pressure1 pressure2
    ((i : ℝ) / ((numPoints x1 y1 pressure1 x2 y2 pressure2 config : ℤ) : ℝ))
    hpne htpos htlt
  have hptp : pt.pressure = lerp pressure1 pressure2
      ((i : ℝ) / ((numPoints x1 y1 pressure1 x2 y2 pressure2 config : ℤ) : ℝ)) := by
    rw [← hpt]
  have hnePP := ne_of_strict_between pressure1 pressure2
    (lerp pressure1 pressure2
      ((i : ℝ) / ((numPoints x1 y1 pressure1 x2 y2 pressure2 config : ℤ) : ℝ)))
    hbet.1 hbet.2
  refine ⟨i, hi1, hile, htpos, htlt, hpt.symm, ?_, ?_, ?_, ?_⟩
  · intro hcon
    have hp1 : pt.pressure = pressure1 := by rw [hcon]
    rw [hptp] at hp1
    exact absurd hp1 hnePP.1
  · intro hcon
    have hp2 : pt.pressure = pressure2 := by rw [hcon]
    rw [hptp] at hp2
    exact absurd hp2 hnePP.2
  · rw [hptp]
    exact hbet.1
  · rw [hptp]
    exact hbet.2

/-- Distance helper for the C7 witness scenario. -/
theorem dist_0_0_10_0 : distance 0 0 10 0 = 10 := by
  unfold distance
  rw [show ((10:ℝ) - 0) * (10 - 0) + (0 - 0) * (0 - 0) = 10 ^ 2 by norm_num,
    Real.sqrt_sq (by norm_num : (0:ℝ) ≤ 10)]

/-- Absolute-value helper for the C7 witness scenario. -/
theorem abs_036_sub_02 : |(0.36:ℝ) - 0.2| = 0.16 := by
  rw [show (0.36:ℝ) - 0.2 = 0.16 by norm_num,
    abs_of_pos (by norm_num : (0:ℝ) < 0.16)]

/-- In the C7 witness scenario the point budget is exactly `2`. -/
theorem witness_numPoints :
    numPoints 0 0 0.2 10 0 0.36 { baseLineWidth := 10, pressureEnabled := true }
      = 2 := by
  have hbp : basePoints 10 10 ((0.16:ℝ) / 10) = 2 := by
    unfold basePoints
    rw [if_pos (by norm_num : (0.16:ℝ)/10 < 0.02),
      if_neg (by norm_num : ¬(30:ℝ) < 10), if_neg (by norm_num : ¬(30:ℝ) < 10),
      show (10:ℝ)/5 = ((2:ℤ):ℝ) by norm_num, Int.floor_intCast,
      max_eq_left (by norm_num : ((2:ℤ):ℝ) ≤ 2)]
  have hsf : sizeFactor 10 ((10:ℝ) * 0.16 * 2.5) = 0.8 := by
    unfold sizeFactor
    rw [if_neg (by norm_num : ¬(30:ℝ) < 10),
      show (10:ℝ) * 0.16 * 2.5 / 5 = 0.8 by norm_num,
      max_eq_right (by norm_num : (0.5:ℝ) ≤ 0.8),
      min_eq_right (by norm_num : (0.8:ℝ) ≤ 2)]
  have key : (⌈basePoints 10 10 (|(0.36:ℝ) - 0.2| / 10)
      * sizeFactor 10 (10 * |(0.36:ℝ) - 0.2| * 2.5)⌉ : ℤ) = 2 := by
    rw [abs_036_sub_02, hbp, hsf, show (2:ℝ) * 0.8 = 1.6 by norm_num,
      Int.ceil_eq_iff]
    constructor <;> norm_num
  unfold numPoints pressureDiff pressureGradient actualSizeChange
  rw [dist_0_0_10_0]
  exact key

/-- In the C7 witness scenario the interpolator emits exactly one point,
the midpoint. -/
theorem witness_interp_eq :
    adaptiveInterpolatePressureTransition 0 0 0.2 10 0 0.36
        { baseLineWidth := 10, pressureEnabled := true }
      = [{ x := 5, y := 0, pressure := 0.28 }] := by
  have hpd : (0.01:ℝ) ≤ pressureDiff 0.2 0.36 := by
    unfold pressureDiff
    rw [abs_036_sub_02]
    norm_num
  have hdist : (2:ℝ) ≤ distance 0 0 10 0 := by
    rw [dist_0_0_10_0]
    norm_num
  have htrig : sizeChangeThreshold
      ({ baseLineWidth := 10, pressureEnabled := true } : InterpolationConfig).baseLineWidth
        < actualSizeChange
          ({ baseLineWidth := 10, pressureEnabled := true } : InterpolationConfig).baseLineWidth
          (pressureDiff 0.2 0.36)
      ∨ gradientThreshold
          ({ baseLineWidth := 10, pressureEnabled := true } : InterpolationConfig).baseLineWidth
        < pressureGradient (pressureDiff 0.2 0.36) (distance 0 0 10 0) := by
    left
    unfold sizeChangeThreshold actualSizeChange pressureDiff
    rw [abs_036_sub_02, if_neg (by norm_num : ¬(30:ℝ) < 10)]
    norm_num
  rw [interp_eq_map 0 0 0.2 10 0 0.36
      { baseLineWidth := 10, pressureEnabled := true } rfl hpd hdist htrig,
    witness_numPoints,
    show ((2:ℤ) - 1).toNat = 1 from rfl,
    show List.range' 1 1 = [1] from rfl, List.map_singleton]
  norm_num [lerp]

/-- C7 witness: the strict-interiority facts at the concrete scenario,
where the single emitted point is the midpoint `(5, 0)` with pressure
`0.28`. -/
theorem interior_points_witness :
    ∃ i : ℕ, 1 ≤ i ∧
      (i : ℤ) ≤ numPoints 0 0 0.2 10 0 0.36
          { baseLineWidth := 10, pressureEnabled := true } - 1 ∧
      0 < (i : ℝ) / ((numPoints 0 0 0.2 10 0 0.36
          { baseLineWidth := 10, pressureEnabled := true } : ℤ) : ℝ) ∧
      (i : ℝ) / ((numPoints 0 0 0.2 10 0 0.36
          { baseLineWidth := 10, pressureEnabled := true } : ℤ) : ℝ) < 1 ∧
      ({ x := 5, y := 0, pressure := 0.28 } : InterpolationPoint)
        = { x := lerp 0 10 ((i : ℝ) / ((numPoints 0 0 0.2 10 0 0.36
              { baseLineWidth := 10, pressureEnabled := true } : ℤ) : ℝ))
            y := lerp 0 0 ((i : ℝ) / ((numPoints 0 0 0.2 10 0 0.36
              { baseLineWidth := 10, pressureEnabled := true } : ℤ) : ℝ))
            pressure := lerp 0.2 0.36 ((i : ℝ) / ((numPoints 0 0 0.2 10 0 0.36
              { baseLineWidth := 10, pressureEnabled := true } : ℤ) : ℝ)) } ∧
      ({ x := 5, y := 0, pressure := 0.28 } : InterpolationPoint)
        ≠ { x := 0, y := 0, pressure := 0.2 } ∧
      ({ x := 5, y := 0, pressure := 0.28 } : InterpolationPoint)
        ≠ { x := 10, y := 0, pressure := 0.36 } ∧
      min 0.2 0.36 < ({ x := 5, y := 0, pressure := 0.28 } : InterpolationPoint).pressure ∧
      ({ x := 5, y := 0, pressure := 0.28 } : InterpolationPoint).pressure
        < max 0.2 0.36 :=
  interpolation_points_strictly_interior 0 0 0.2 10 0 0.36
    { baseLineWidth := 10, pressureEnabled := true }
    { x := 5, y := 0, pressure := 0.28 }
    (by rw [witness_interp_eq]; exact List.mem_singleton.mpr rfl)

/-! ## Whiteboard component (`Whiteboard.vue` and `types.ts`)

The stroke builder and pointer-session lifecycle.  A Leafer `Pen` is
modelled by `PathObj`; the scene-graph side effect of `startPath`
(`mainGroup.add(path)`) is modelled by returning every newly created path
from `moveStep`. -/

noncomputable section

/-- Tool type: pen or eraser. -/
inductive ToolType where
  | pen
  | eraser
  deriving DecidableEq, Repr

/-- Eraser type: vector path subtraction or raster pixel erasure. -/
inductive EraserType where
  | path
  | pixel
  deriving DecidableEq, Repr

/-- Brush configuration. -/
structure BrushConfig where
  color : String
  baseLineWidth : ℝ
  pressureEnabled : Bool
  pressureFactor : ℝ
  smartSmoothingEnabled : Bool

/-- Eraser configuration. -/
structure EraserConfig where
  type : EraserType
  size : ℝ

/-- Tool configuration. -/
structure ToolConfig where
  toolType : ToolType
  brush : BrushConfig
  eraser : EraserConfig
  touchDrawingEnabled : Bool

/-- The default tool configuration of the whiteboard component. -/
def defaultToolConfig : ToolConfig :=
  { toolType := ToolType.pen
    brush := { color := "#000000", baseLineWidth := 3, pressureEnabled := true,
               pressureFactor := 0.8, smartSmoothingEnabled := true }
    eraser := { type := EraserType.path, size := 20 }
    touchDrawingEnabled := true }

/-- `getPressureThreshold(baseLineWidth)`: the width-dependent pressure
deviation needed before a stroke segment is split. -/
def getPressureThreshold (baseLineWidth : ℝ) : ℝ :=
  if baseLineWidth < 10 then 0.05
  else if baseLineWidth < 30 then 0.03
  else 0.015

/-- `getBrushSize(pressure, baseSize, pressureEnabled)`. -/
def getBrushSize (pressure baseSize : ℝ) (pressureEnabled : Bool) : ℝ :=
  if pressureEnabled = false then baseSize
  else baseSize * (0.5 + pressure * 2.5)

/-- A stroke object (Leafer `Pen`): style, optional erase-mode tag, and the
points drawn with `moveTo`/`lineTo`. -/
structure PathObj where
  stroke : String
  strokeWidth : ℝ
  strokeCap : String
  strokeJoin : String
  eraser : Option EraserType
  points : List (ℝ × ℝ)

/-- `startPath(x, y, pressure, isEraser)`: create a new stroke object.  For
erasers the stroke is a fixed opaque marker color and the erase-mode tag is
hard-coded to `pixel` (`path.eraser = 'pixel'`); the configured
`eraser.type` is not consulted.  `moveTo(x, y)` then `lineTo(x, y)` leave
two copies of the start point. -/
def startPath (config : ToolConfig) (x y pressure : ℝ) (isEraser : Bool) :
    PathObj :=
  { stroke := if isEraser then "rgba(0,0,0,1)" else config.brush.color
    strokeWidth :=
      if isEraser then config.eraser.size
      else getBrushSize pressure config.brush.baseLineWidth
        config.brush.pressureEnabled
    strokeCap := "round"
    strokeJoin := "round"
    eraser := if isEraser then some EraserType.pixel else none
    points := [(x, y), (x, y)] }

/-- `path.lineTo(x, y)`. -/
def addLineTo (p : PathObj) (x y : ℝ) : PathObj :=
  { p with points := p.points ++ [(x, y)] }

/-- Per-pointer drawing state, as stored in the `drawingStates` map. -/
structure DrawingState where
  path : PathObj
  isEraser : Bool
  lastPressure : ℝ
  lastX : ℝ
  lastY : ℝ
  smoothedPressure : ℝ
  smoothedX : ℝ
  smoothedY : ℝ
  lastTimestamp : ℝ
  adaptiveSmoothingState : AdaptiveSmoothingState

/-- The point actually used by `handlePointerMove` after the optional
smart-smoothing step (position EMA, adaptive pressure EMA); raw input is
used as-is when smoothing is disabled or the session is an eraser. -/
structure EffectiveInput where
  x : ℝ
  y : ℝ
  pressure : ℝ
  adaptiveSmoothingState : AdaptiveSmoothingState

/-- Compute the effective input point of a `pointermove` event. -/
def effectiveInput (brush : BrushConfig) (st : DrawingState)
    (rawX rawY rawPressure : ℝ) : EffectiveInput :=
  if brush.smartSmoothingEnabled = true ∧ st.isEraser = false then
    { x := (smoothPosition st.smoothedX st.smoothedY rawX rawY
        DEFAULT_POSITION_SMOOTHING_ALPHA).1
      y := (smoothPosition st.smoothedX st.smoothedY rawX rawY
        DEFAULT_POSITION_SMOOTHING_ALPHA).2
      pressure := exponentialMovingAverage st.smoothedPressure rawPressure
        (getAdaptivePressureAlpha st.adaptiveSmoothingState rawPressure).2
      adaptiveSmoothingState :=
        (getAdaptivePressureAlpha st.adaptiveSmoothingState rawPressure).1 }
  else
    { x := rawX, y := rawY, pressure := rawPressure,
      adaptiveSmoothingState := st.adaptiveSmoothingState }

/-- The sub-segment paths emitted for the interpolated transition points:
one `startPath` + `lineTo` per point, chained from the last anchor. -/
def emitInterpolationPaths (config : ToolConfig) (startX startY : ℝ)
    (ipoints : List InterpolationPoint) : List PathObj × ℝ × ℝ :=
  ipoints.foldl
    (fun acc p =>
      (acc.1 ++ [addLineTo (startPath config acc.2.1 acc.2.2 p.pressure false)
          p.x p.y],
       p.x, p.y))
    ([], startX, startY)

open Classical in
/-- One `handlePointerMove` step on an active drawing session (after the
touch-gesture and session-lookup guards).  Returns the updated session state
together with the list of newly created stroke objects (each was also added
to the scene graph). -/
def moveStep (config : ToolConfig) (st : DrawingState)
    (rawX rawY rawPressure currentTimestamp : ℝ) :
    DrawingState × List PathObj :=
  if config.brush.smartSmoothingEnabled = true ∧ st.isEraser = false ∧
      ¬ shouldAcceptPoint
        { x := st.lastX, y := st.lastY, pressure := st.lastPressure,
          timestamp := st.lastTimestamp }
        { x := rawX, y := rawY, pressure := rawPressure,
          timestamp := currentTimestamp }
  then (st, [])
  else
    let e := effectiveInput config.brush st rawX rawY rawPressure
    let st1 :=
      if config.brush.smartSmoothingEnabled = true ∧ st.isEraser = false then
        { st with
          smoothedX := e.x, smoothedY := e.y,
          smoothedPressure := e.pressure, lastTimestamp := currentTimestamp,
          adaptiveSmoothingState := e.adaptiveSmoothingState }
      else st
    if getPressureThreshold config.brush.baseLineWidth
        < |e.pressure - st.lastPressure| ∧ st.isEraser = false then
      let ipoints := adaptiveInterpolatePressureTransition st.lastX st.lastY
        st.lastPressure e.x e.y e.pressure
        { baseLineWidth := config.brush.baseLineWidth,
          pressureEnabled := config.brush.pressureEnabled }
      if ipoints ≠ [] then
        let emitted := emitInterpolationPaths config st.lastX st.lastY ipoints
        let finalPath := addLineTo
          (startPath config emitted.2.1 emitted.2.2 e.pressure false) e.x e.y
        ({ st1 with
            path := finalPath, lastPressure := e.pressure,
            lastX := e.x, lastY := e.y },
         emitted.1 ++ [finalPath])
      else
        let newPath := addLineTo
          (startPath config st.lastX st.lastY e.pressure false) e.x e.y
        ({ st1 with
            path := newPath, lastPressure := e.pressure,
            lastX := e.x, lastY := e.y },
         [newPath])
    else
      ({ st1 with
          path := addLineTo st1.path e.x e.y,
          lastX := e.x, lastY := e.y }, [])

/-- A whole drag: fold `moveStep` over a list of raw move events
`(x, y, pressure, timestamp)`, collecting every newly created stroke. -/
def applyMoves (config : ToolConfig) (st : DrawingState) :
    List (ℝ × ℝ × ℝ × ℝ) → DrawingState × List PathObj
  | [] => (st, [])
  | m :: ms =>
    let r := moveStep config st m.1 m.2.1 m.2.2.1 m.2.2.2
    let rest := applyMoves config r.1 ms
    (rest.1, r.2 ++ rest.2)

/-- The component state touched by `handlePointerUp`/`handlePointerCancel`:
the per-pointer session table, captured pointers, stylus flags, whether the
debounced history snapshot save was requested, and the touch-gesture
tracking state cleared by `handleTouchEnd`. -/
structure BoardState where
  sessions : List (ℕ × DrawingState)
  capturedPointers : List ℕ
  isUsingPen : Bool
  temporaryToolSwitch : Option ToolType
  historySaveRequested : Bool
  touchGestureActive : Bool

/-- `handleTouchEnd(e)`: clear the touch-gesture tracking state. -/
def handleTouchEnd (st : BoardState) : BoardState :=
  { st with touchGestureActive := false }

/-- `drawingStates.delete(e.pointerId)`. -/
def removeSession (sessions : List (ℕ × DrawingState)) (pointerId : ℕ) :
    List (ℕ × DrawingState) :=
  sessions.filter (fun s => s.1 != pointerId)

/-- `canvasRef.value?.releasePointerCapture(e.pointerId)`. -/
def releaseCapture (captured : List ℕ) (pointerId : ℕ) : List ℕ :=
  captured.filter (fun q => q != pointerId)

/-- `handlePointerUp(e)`: gesture cleanup, release capture, delete session,
clear stylus flags when all pointers are released, and request the debounced
history snapshot when all pointers are released. -/
def handlePointerUp (st : BoardState) (pointerId : ℕ) : BoardState :=
  let st1 := handleTouchEnd st
  let st2 := { st1 with
    capturedPointers := releaseCapture st1.capturedPointers pointerId }
  let st3 := { st2 with sessions := removeSession st2.sessions pointerId }
  let st4 :=
    if st3.sessions.isEmpty = true ∧ st3.isUsingPen = true then
      { st3 with isUsingPen := false, temporaryToolSwitch := none }
    else st3
  if st4.sessions.isEmpty = true then
    { st4 with historySaveRequested := true }
  else st4

/-- `handlePointerCancel(e)`: release capture, delete session, clear stylus
flags when all pointers are released, then gesture cleanup.  It does NOT
request the history snapshot. -/
def handlePointerCancel (st : BoardState) (pointerId : ℕ) : BoardState :=
  let st1 := { st with
    capturedPointers := releaseCapture st.capturedPointers pointerId }
  let st2 := { st1 with sessions := removeSession st1.sessions pointerId }
  let st3 :=
    if st2.sessions.isEmpty = true ∧ st2.isUsingPen = true then
      { st2 with isUsingPen := false, temporaryToolSwitch := none }
    else st2
  handleTouchEnd st3

end

/-! ### Facts about the stroke builder and the pointer-session lifecycle -/

/-- An eraser session never splits: one move step adds no stroke object and
keeps the session an eraser session. -/
theorem moveStep_eraser (config : ToolConfig) (st : DrawingState)
    (rawX rawY rawPressure currentTimestamp : ℝ) (her : st.isEraser = true) :
    (moveStep config st rawX rawY rawPressure currentTimestamp).2 = [] ∧
    (moveStep config st rawX rawY rawPressure currentTimestamp).1.isEraser
      = true := by
  have h1 : ¬ (config.brush.smartSmoothingEnabled = true ∧ st.isEraser = false ∧
      ¬ shouldAcceptPoint
        { x := st.lastX, y := st.lastY, pressure := st.lastPressure,
          timestamp := st.lastTimestamp }
        { x := rawX, y := rawY, pressure := rawPressure,
          timestamp := currentTimestamp }) := by
    rintro ⟨-, hf, -⟩
    rw [her] at hf
    exact Bool.noConfusion hf
  have h2 : ¬ (getPressureThreshold config.brush.baseLineWidth
      < |(effectiveInput config.brush st rawX rawY rawPressure).pressure
          - st.lastPressure|
      ∧ st.isEraser = false) := by
    rintro ⟨-, hf⟩
    rw [her] at hf
    exact Bool.noConfusion hf
  have h3 : ¬ (config.brush.smartSmoothingEnabled = true ∧
      st.isEraser = false) := by
    rintro ⟨-, hf⟩
    rw [her] at hf
    exact Bool.noConfusion hf
  simp only [moveStep]
  rw [if_neg h1, if_neg h2, if_neg h3]
  exact ⟨rfl, her⟩

/-- A whole eraser drag emits no stroke object beyond the one created on
pointer-down, and stays an eraser session. -/
theorem applyMoves_eraser (config : ToolConfig) (st : DrawingState)
    (moves : List (ℝ × ℝ × ℝ × ℝ)) (her : st.isEraser = true) :
    (applyMoves config st moves).2 = [] ∧
    (applyMoves config st moves).1.isEraser = true := by
  induction moves generalizing st with
  | nil => exact ⟨rfl, her⟩
  | cons m ms ih =>
    have hm := moveStep_eraser config st m.1 m.2.1 m.2.2.1 m.2.2.2 her
    have hrec := ih (moveStep config st m.1 m.2.1 m.2.2.1 m.2.2.2).1 hm.2
    simp only [applyMoves]
    constructor
    · rw [hm.1, hrec.1]
      rfl
    · exact hrec.2

/-- C8: while extending an active stroke with an accepted point, a new path
segment is started (at least one new stroke object is created) exactly when
the effective pressure deviates from the last-used pressure by strictly more
than the width-dependent threshold (`0.05` below base width `10`, `0.03`
below `30`, `0.015` otherwise) and the session is not an eraser; a full
eraser drag never creates an additional stroke object. -/
theorem segment_split_characterization :
    (∀ w : ℝ,
      (w < 10 → getPressureThreshold w = 0.05) ∧
      (¬ w < 10 → w < 30 → getPressureThreshold w = 0.03) ∧
      (¬ w < 30 → getPressureThreshold w = 0.015)) ∧
    (∀ (config : ToolConfig) (st : DrawingState)
        (rawX rawY rawPressure currentTimestamp : ℝ),
      (config.brush.smartSmoothingEnabled = true ∧ st.isEraser = false →
        shouldAcceptPoint
          { x := st.lastX, y := st.lastY, pressure := st.lastPressure,
            timestamp := st.lastTimestamp }
          { x := rawX, y := rawY, pressure := rawPressure,
            timestamp := currentTimestamp }) →
      ((moveStep config st rawX rawY rawPressure currentTimestamp).2 ≠ [] ↔
        (getPressureThreshold config.brush.baseLineWidth
            < |(effectiveInput config.brush st rawX rawY rawPressure).pressure
                - st.lastPressure|
         ∧ st.isEraser = false))) ∧
    (∀ (config : ToolConfig) (st : DrawingState)
        (moves : List (ℝ × ℝ × ℝ × ℝ)),
      st.isEraser = true → (applyMoves config st moves).2 = []) := by
  refine ⟨?_, ?_, ?_⟩
  · intro w
    refine ⟨?_, ?_, ?_⟩
    · intro h
      simp only [getPressureThreshold]
      rw [if_pos h]
    · intro h1 h2
      simp only [getPressureThreshold]
      rw [if_neg h1, if_pos h2]
    · intro h2
      have h1 : ¬ w < 10 := fun hc => h2 (by linarith)
      simp only [getPressureThreshold]
      rw [if_neg h1, if_neg h2]
  · intro config st rawX rawY rawPressure currentTimestamp haccept
    have h1 : ¬ (config.brush.smartSmoothingEnabled = true ∧ st.isEraser = false ∧
        ¬ shouldAcceptPoint
          { x := st.lastX, y := st.lastY, pressure := st.lastPressure,
            timestamp := st.lastTimestamp }
          { x := rawX, y := rawY, pressure := rawPressure,
            timestamp := currentTimestamp }) := by
      rintro ⟨hs, he, hna⟩
      exact hna (haccept ⟨hs, he⟩)
    simp only [moveStep]
    rw [if_neg h1]
    by_cases hcond : getPressureThreshold config.brush.baseLineWidth
        < |(effectiveInput config.brush st rawX rawY rawPressure).pressure
            - st.lastPressure|
        ∧ st.isEraser = false
    · rw [if_pos hcond]
      by_cases hip : adaptiveInterpolatePressureTransition st.lastX st.lastY
          st.lastPressure (effectiveInput config.brush st rawX rawY rawPressure).x
          (effectiveInput config.brush st rawX rawY rawPressure).y
          (effectiveInput config.brush st rawX rawY rawPressure).pressure
          { baseLineWidth := config.brush.baseLineWidth,
            pressureEnabled := config.brush.pressureEnabled } ≠ []
      · rw [if_pos hip]
        refine ⟨fun _ => hcond, fun _ => ?_⟩
        simp
      · rw [if_neg hip]
        refine ⟨fun _ => hcond, fun _ => ?_⟩
        simp
    · rw [if_neg hcond]
      exact ⟨fun hcon => absurd rfl hcon, fun hc => absurd hc hcond⟩
  · intro config st moves her
    exact (applyMoves_eraser config st moves her).1

/-- C8 witness: with smoothing disabled, a raw pressure jump from `0.2` to
`0.9` on a `baseLineWidth = 3` pen starts a new segment, while a full
eraser drag over two moves creates no additional stroke objects. -/
theorem segment_split_witness :
    (moveStep
        { toolType := ToolType.pen,
          brush := { color := "#000000", baseLineWidth := 3,
                     pressureEnabled := true, pressureFactor := 0.8,
                     smartSmoothingEnabled := false },
          eraser := { type := EraserType.path, size := 20 },
          touchDrawingEnabled := true }
        { path := startPath defaultToolConfig 0 0 0.2 false, isEraser := false,
          lastPressure := 0.2, lastX := 0, lastY := 0, smoothedPressure := 0.2,
          smoothedX := 0, smoothedY := 0, lastTimestamp := 0,
          adaptiveSmoothingState := initAdaptiveSmoothingState 5 }
        1 0 0.9 5).2 ≠ [] ∧
    (applyMoves defaultToolConfig
        { path := startPath defaultToolConfig 0 0 0.5 true, isEraser := true,
          lastPressure := 0.5, lastX := 0, lastY := 0, smoothedPressure := 0.5,
          smoothedX := 0, smoothedY := 0, lastTimestamp := 0,
          adaptiveSmoothingState := initAdaptiveSmoothingState 5 }
        [(50, 0, 0.9, 5), (100, 0, 0.1, 9)]).2 = [] := by
  constructor
  · refine (segment_split_characterization.2.1 _ _ 1 0 0.9 5 ?_).mpr ⟨?_, rfl⟩
    · rintro ⟨hs, -⟩
      simp at hs
    · show getPressureThreshold 3 < |(0.9:ℝ) - 0.2|
      rw [show |(0.9:ℝ) - 0.2| = 0.7 by
        rw [show (0.9:ℝ) - 0.2 = 0.7 by norm_num,
          abs_of_pos (by norm_num : (0:ℝ) < 0.7)]]
      unfold getPressureThreshold
      rw [if_pos (by norm_num : (3:ℝ) < 10)]
      norm_num
  · exact segment_split_characterization.2.2 _ _ _ rfl

/-- C9 counterexample: with the eraser configured in `path` mode, the
eraser stroke created by `startPath` does not carry the configured `path`
erase-mode tag. -/
theorem eraser_mode_counterexample :
    (startPath
        { toolType := ToolType.eraser,
          brush := { color := "#000000", baseLineWidth := 3,
                     pressureEnabled := true, pressureFactor := 0.8,
                     smartSmoothingEnabled := true },
          eraser := { type := EraserType.path, size := 30 },
          touchDrawingEnabled := true }
        0 0 0.5 true).eraser ≠ some EraserType.path := by
  simp [startPath]

/-- C9 (amended): every eraser stroke created by `startPath` is tagged with
the hard-coded `pixel` erase mode, regardless of the configured eraser
type; non-eraser strokes carry no erase-mode tag. -/
theorem eraser_mode_hardcoded_pixel (config : ToolConfig) (x y pressure : ℝ) :
    (startPath config x y pressure true).eraser = some EraserType.pixel ∧
    (startPath config x y pressure false).eraser = none := by
  constructor <;> simp [startPath]

/-- A sample drawing session used in concrete pointer-lifecycle states. -/
noncomputable def sampleSession : DrawingState :=
  { path := startPath defaultToolConfig 0 0 0.5 true, isEraser := true,
    lastPressure := 0.5, lastX := 0, lastY := 0, smoothedPressure := 0.5,
    smoothedX := 0, smoothedY := 0, lastTimestamp := 0,
    adaptiveSmoothingState := initAdaptiveSmoothingState 5 }

/-- C10 counterexample: with one active session for pointer `7`,
pointer-cancel performs the cleanup but does NOT request the debounced
history snapshot, while pointer-up does. -/
theorem pointer_cancel_no_snapshot_counterexample :
    (handlePointerCancel
        { sessions := [(7, sampleSession)], capturedPointers := [7],
          isUsingPen := true, temporaryToolSwitch := some ToolType.eraser,
          historySaveRequested := false, touchGestureActive := true }
        7).historySaveRequested = false ∧
    (handlePointerUp
        { sessions := [(7, sampleSession)], capturedPointers := [7],
          isUsingPen := true, temporaryToolSwitch := some ToolType.eraser,
          historySaveRequested := false, touchGestureActive := true }
        7).historySaveRequested = true := by
  constructor
  · simp [handlePointerCancel, handleTouchEnd, removeSession, releaseCapture]
  · simp [handlePointerUp, handleTouchEnd, removeSession, releaseCapture]

/-- C10 (amended): pointer-cancel is handled identically to pointer-up for
every state-cleanup field — capture released, session deleted, stylus flags
and temporary tool switch cleared once all pointers are released, and
touch-gesture state cleared — but unlike pointer-up it never requests the
debounced history snapshot push. -/
theorem pointer_cancel_cleanup_matches_up (st : BoardState) (pointerId : ℕ) :
    (handlePointerCancel st pointerId).capturedPointers
        = (handlePointerUp st pointerId).capturedPointers ∧
    (handlePointerCancel st pointerId).sessions
        = (handlePointerUp st pointerId).sessions ∧
    (handlePointerCancel st pointerId).isUsingPen
        = (handlePointerUp st pointerId).isUsingPen ∧
    (handlePointerCancel st pointerId).temporaryToolSwitch
        = (handlePointerUp st pointerId).temporaryToolSwitch ∧
    (handlePointerCancel st pointerId).touchGestureActive
        = (handlePointerUp st pointerId).touchGestureActive ∧
    (handlePointerCancel st pointerId).historySaveRequested
        = st.historySaveRequested ∧
    (handlePointerUp st pointerId).historySaveRequested
        = (if (removeSession st.sessions pointerId).isEmpty = true then true
           else st.historySaveRequested) := by
  unfold handlePointerUp handlePointerCancel handleTouchEnd
  by_cases hE : (removeSession st.sessions pointerId).isEmpty = true
  · by_cases hP : st.isUsingPen = true
    · simp [hE, hP]
    · simp [hE, hP]
  · by_cases hP : st.isUsingPen = true
    · simp [hE, hP]
    · simp [hE, hP]

end GSWhiteBoard
